import Mathlib

/-!
Verification of the `kvs` log-structured key-value store.

The development shallowly embeds the storage engine of
`src/engine/kvs.rs`, the server dispatch of `src/server.rs` and the
sled adapter of `src/engine/sled.rs`.  The on-disk log is modelled at
record granularity: every write the engine performs appends one complete
framed record (an 8-byte little-endian size prefix followed by the
MessagePack payload), so the file contents are represented as the list
of framed records together with an exact byte-length function for the
frames.  All byte offsets, sizes and counters are modelled exactly.
-/

set_option autoImplicit false

namespace Kvs

/-- Error taxonomy of `src/error.rs` (payload strings omitted). -/
inductive Error where
  | Generic
  | IOError
  | SerializeError
  | DeserializeError
  | SledError
  | KeyNotFound
  deriving DecidableEq

/-- A single entry in the log, from `src/engine/kvs.rs` (`enum Command`). -/
inductive Command where
  | Get : String → Command
  | Set : String → String → Command
  | Remove : String → Command
  deriving DecidableEq

/-- Byte length of a MessagePack string: header (fixstr, str8, str16 or
str32 depending on the UTF-8 byte size) plus the UTF-8 bytes.  Models the
encoding of the `String` fields produced by `rmp_serde::to_vec`. -/
def mpStrLen (s : String) : Nat :=
  (if s.utf8ByteSize < 32 then 1
   else if s.utf8ByteSize < 256 then 2
   else if s.utf8ByteSize < 65536 then 3
   else 5) + s.utf8ByteSize

/-- Byte length of the MessagePack payload `rmp_serde::to_vec` produces for a
`Command`: a single-entry map from the variant index (one fixint byte, plus
the fixmap header) to the field data (a two-element fixarray for `Set`, the
bare string for the newtype variants `Get` and `Remove`). -/
def payloadLen : Command → Nat
  | Command.Get k => 2 + mpStrLen k
  | Command.Set k v => 3 + mpStrLen k + mpStrLen v
  | Command.Remove k => 2 + mpStrLen k

/-- On-disk size of one framed record: the 8-byte little-endian length
prefix plus the serialized payload (spec §3, `framed_size = 8 + size`). -/
def framedSize (c : Command) : Nat := 8 + payloadLen c

/-- Total byte length of a log file holding the given records in order. -/
def logSize : List Command → Nat
  | [] => 0
  | c :: rest => framedSize c + logSize rest

/-- An entry of the in-memory index (`struct CommandIndex` in
`src/engine/kvs.rs`): byte offset of the record in the log and its framed
size. -/
structure CommandIndex where
  pos : Nat
  size : Nat
  deriving DecidableEq

/-- Lookup in the in-memory index (`BTreeMap::get`). -/
def storeGet : List (String × CommandIndex) → String → Option CommandIndex
  | [], _ => none
  | (k, i) :: rest, key => if k = key then some i else storeGet rest key

/-- Insert into the in-memory index, replacing an existing binding for the
key (`BTreeMap::insert`). -/
def storeInsert : List (String × CommandIndex) → String → CommandIndex → List (String × CommandIndex)
  | [], key, idx => [(key, idx)]
  | (k, i) :: rest, key, idx =>
      if k = key then (key, idx) :: rest else (k, i) :: storeInsert rest key idx

/-- Delete a key from the in-memory index (`BTreeMap::remove`). -/
def storeRemove : List (String × CommandIndex) → String → List (String × CommandIndex)
  | [], _ => []
  | (k, i) :: rest, key => if k = key then rest else (k, i) :: storeRemove rest key

/-- The overwrite branch of `KvStore::set` (`kvs.rs` lines 250-253): via
`get_mut`, the existing entry's `pos` field is assigned; its `size` field is
left as it was. -/
def storeUpdatePos : List (String × CommandIndex) → String → Nat → List (String × CommandIndex)
  | [], _, _ => []
  | (k, i) :: rest, key, p =>
      if k = key then (key, { pos := p, size := i.size }) :: rest
      else (k, i) :: storeUpdatePos rest key p

/-- State of the log-structured engine (`struct KvStore`): the in-memory
index, the records of the active log file, the engine's log position
(`log_pos`, the spec's `write_pos`) and the uncompacted-bytes counter.
The writer and reader file handles are represented by the log contents
itself; `log_dir` plays no role once the file is identified. -/
structure KvStore where
  store : List (String × CommandIndex)
  log : List Command
  log_pos : Nat
  num_uncompacted : Nat
  deriving DecidableEq

/-- Compaction threshold `KvStore::MAX_UNCOMPACTED` (1 MiB). -/
def MAX_UNCOMPACTED : Nat := 1024 * 1024

/-- Seek the reader to an absolute byte offset, read the 8-byte size frame
and deserialize the payload.  Returns the record exactly when the offset is
the start of a record; `none` models the failed read (end-of-file or a
frame that does not begin at a record boundary). -/
def readRecordAt : List Command → Nat → Option Command
  | [], _ => none
  | c :: rest, off =>
      if off = 0 then some c
      else if off < framedSize c then none
      else readRecordAt rest (off - framedSize c)

/-- Result of an engine read: `Ok` value, an `Error`, or a Rust panic
(`assert!`/`panic!`/`unwrap`), which is not an `Error` value. -/
inductive GetOutcome where
  | ok : Option String → GetOutcome
  | err : Error → GetOutcome
  | panicked : GetOutcome
  deriving DecidableEq

/-- `KvStore::get` (`kvs.rs` lines 269-293): absent key returns `Ok(None)`;
otherwise seek to `index[key].pos`, read the size frame (an I/O error when
it runs past end-of-file), deserialize, `assert!` the key matches and
`panic!` unless the record is a `Set`. -/
def KvStore.get (s : KvStore) (key : String) : GetOutcome :=
  match storeGet s.store key with
  | none => GetOutcome.ok none
  | some idx =>
      if logSize s.log < idx.pos + 8 then GetOutcome.err Error.IOError
      else
        match readRecordAt s.log idx.pos with
        | some (Command.Set k v) =>
            if k = key then GetOutcome.ok (some v) else GetOutcome.panicked
        | some _ => GetOutcome.panicked
        | none => GetOutcome.err Error.DeserializeError

/-- Insert one index entry into a list sorted by ascending `pos`. -/
def insertByPos (e : String × CommandIndex) :
    List (String × CommandIndex) → List (String × CommandIndex)
  | [] => [e]
  | f :: rest => if e.2.pos ≤ f.2.pos then e :: f :: rest else f :: insertByPos e rest

/-- Sort the index entries by ascending log position (`log_data.sort_by` in
`KvStore::compact`). -/
def sortByPos : List (String × CommandIndex) → List (String × CommandIndex)
  | [] => []
  | e :: rest => insertByPos e (sortByPos rest)

/-- The per-entry loop of `KvStore::compact` (`kvs.rs` lines 117-139).
For each entry (in ascending `pos` order): seek the old log to `pos`, read
the size frame and copy the framed record to the new log; assign the
entry's `pos` to the running new-log position; advance that position by the
entry's (possibly stale) `size` field.  Returns the entries (processed ones
with updated `pos`), the copied records, the final new-log position and
whether every read succeeded; on a failed read the remaining entries are
untouched, matching the early return of the `?` operator. -/
def compactLoop (oldLog : List Command) :
    List (String × CommandIndex) → Nat →
    List (String × CommandIndex) × List Command × Nat × Bool
  | [], newPos => ([], [], newPos, true)
  | (k, idx) :: rest, newPos =>
      match readRecordAt oldLog idx.pos with
      | none => ((k, idx) :: rest, [], newPos, false)
      | some c =>
          match compactLoop oldLog rest (newPos + idx.size) with
          | (entries, recs, finalPos, ok) =>
              ((k, { pos := newPos, size := idx.size }) :: entries, c :: recs, finalPos, ok)

/-- `KvStore::compact` (`kvs.rs` lines 94-157): copy the records named by
the index to a fresh log in ascending offset order, point the index at the
new positions, adopt the new log (rename plus handle swap), set `log_pos`
to the accumulated new position and reset `num_uncompacted`.  When a read
fails, the error propagates: the old log stays in place (no rename), the
already-processed entries keep their reassigned positions, and `log_pos`
and `num_uncompacted` are not touched. -/
def KvStore.compact (s : KvStore) : KvStore × Except Error Unit :=
  match compactLoop s.log (sortByPos s.store) 0 with
  | (entries, recs, finalPos, ok) =>
      if ok then
        ({ store := entries, log := recs, log_pos := finalPos, num_uncompacted := 0 },
         Except.ok ())
      else
        ({ s with store := entries }, Except.error Error.IOError)

/-- `KvStore::set` (`kvs.rs` lines 231-267): append the framed `Set` record
at the end of the log; if the key already has an entry, add its old `size`
to `num_uncompacted` and update the entry's `pos` only (its `size` field is
not assigned); otherwise insert a fresh entry; advance `log_pos` by the new
record's framed size; compact when `num_uncompacted` exceeds the
threshold. -/
def KvStore.set (s : KvStore) (key value : String) : KvStore × Except Error Unit :=
  let fsize := 8 + payloadLen (Command.Set key value)
  let logAfter := s.log ++ [Command.Set key value]
  let storeAfter :=
    match storeGet s.store key with
    | some _ => storeUpdatePos s.store key s.log_pos
    | none => storeInsert s.store key { pos := s.log_pos, size := fsize }
  let uncAfter :=
    match storeGet s.store key with
    | some old => s.num_uncompacted + old.size
    | none => s.num_uncompacted
  let s1 : KvStore :=
    { store := storeAfter, log := logAfter,
      log_pos := s.log_pos + fsize, num_uncompacted := uncAfter }
  if s1.num_uncompacted > MAX_UNCOMPACTED then s1.compact else (s1, Except.ok ())

/-- `KvStore::remove` (`kvs.rs` lines 295-328): an absent key returns
`KeyNotFound` with no other effect; otherwise the entry is deleted, a
framed `Remove` record is appended, both the old entry's `size` and the
tombstone's framed size are added to `num_uncompacted`, `log_pos` advances,
and compaction runs when over the threshold. -/
def KvStore.remove (s : KvStore) (key : String) : KvStore × Except Error Unit :=
  match storeGet s.store key with
  | none => (s, Except.error Error.KeyNotFound)
  | some old =>
      let fsize := 8 + payloadLen (Command.Remove key)
      let s1 : KvStore :=
        { store := storeRemove s.store key,
          log := s.log ++ [Command.Remove key],
          log_pos := s.log_pos + fsize,
          num_uncompacted := s.num_uncompacted + old.size + fsize }
      if s1.num_uncompacted > MAX_UNCOMPACTED then s1.compact else (s1, Except.ok ())

/-- `KvStore::load_log` (`kvs.rs` lines 160-194) combined with
`process_command` (lines 198-208): scan the records from offset 0; a `Set`
inserts `{pos, 8 + size}` for its key, a `Remove` deletes the key, and the
position advances by each record's framed size. -/
def loadLog : List Command → Nat → List (String × CommandIndex) → List (String × CommandIndex)
  | [], _, store => store
  | c :: rest, pos, store =>
      match c with
      | Command.Set k _ => loadLog rest (pos + framedSize c) (storeInsert store k { pos := pos, size := framedSize c })
      | Command.Remove k => loadLog rest (pos + framedSize c) (storeRemove store k)
      | Command.Get _ => loadLog rest (pos + framedSize c) store

/-- `KvStore::open` (`kvs.rs` lines 60-86) on a directory whose `kvs.log`
holds the given records: rebuild the index with `load_log`, leave `log_pos`
at the file size and `num_uncompacted` at zero. -/
def KvStore.openStore (log : List Command) : KvStore :=
  { store := loadLog log 0 [], log := log, log_pos := logSize log, num_uncompacted := 0 }

/-- Does some index entry point at the given byte offset? -/
def offsetLive (store : List (String × CommandIndex)) (o : Nat) : Bool :=
  store.any (fun e => e.2.pos = o)

/-- Sum of the framed sizes of the records whose start offset satisfies the
predicate. -/
def liveBytesAux : List Command → Nat → (Nat → Bool) → Nat
  | [], _, _ => 0
  | c :: rest, off, p =>
      (if p off then framedSize c else 0) + liveBytesAux rest (off + framedSize c) p

/-- The true number of dead bytes in the log: total file size minus the
framed bytes of the records the index still points at (spec §3, "dead
bytes"). -/
def deadBytes (s : KvStore) : Nat :=
  logSize s.log - liveBytesAux s.log 0 (offsetLive s.store)

/-- One public mutating or reading operation of the engine. -/
inductive Op where
  | set : String → String → Op
  | remove : String → Op
  | get : String → Op

/-- Run one operation, reporting whether it returned successfully. -/
def runOp (s : KvStore) : Op → KvStore × Bool
  | Op.set k v =>
      match s.set k v with
      | (s1, Except.ok _) => (s1, true)
      | (s1, Except.error _) => (s1, false)
  | Op.remove k =>
      match s.remove k with
      | (s1, Except.ok _) => (s1, true)
      | (s1, Except.error _) => (s1, false)
  | Op.get k =>
      match s.get k with
      | GetOutcome.ok _ => (s, true)
      | _ => (s, false)

/-- Run a sequence of operations, `none` as soon as one is unsuccessful. -/
def runOps : KvStore → List Op → Option KvStore
  | s, [] => some s
  | s, o :: rest =>
      match runOp s o with
      | (s1, true) => runOps s1 rest
      | (_, false) => none

/-- `KvStore::remove` on a present key in the run where the tombstone
serialization or the buffered log write then fails (`kvs.rs` lines
296-307): `self.store.remove(&key)` has already deleted the index entry
when the `?` operator propagates the error, so the mutated state keeps the
deletion while no record reaches the log. -/
def KvStore.removeWriteFails (s : KvStore) (key : String) : KvStore × Except Error Unit :=
  match storeGet s.store key with
  | none => (s, Except.error Error.KeyNotFound)
  | some _ => ({ s with store := storeRemove s.store key }, Except.error Error.IOError)

/-- Wire request variants (`src/server.rs`, `enum Request`). -/
inductive Request where
  | Set : String → String → Request
  | Get : String → Request
  | Remove : String → Request

/-- Wire response variants (`src/server.rs`, `enum Response`). -/
inductive Response where
  | Ok : Response
  | Value : String → Response
  | Error : Kvs.Error → Response
  deriving DecidableEq

/-- `KvsServer::handle_request` (`server.rs` lines 33-55) over a
dynamically dispatched engine, given after the request was deserialized:
`Get` forwards the engine's optional value, `Set` and `Remove` yield
`Ok(None)` on success, and every engine error propagates through the `?`
operator. -/
def handleRequest (doGet : String → Except Error (Option String))
    (doSet : String → String → Except Error Unit)
    (doRemove : String → Except Error Unit) : Request → Except Error (Option String)
  | Request.Get k => doGet k
  | Request.Set k v =>
      match doSet k v with
      | Except.ok _ => Except.ok none
      | Except.error e => Except.error e
  | Request.Remove k =>
      match doRemove k with
      | Except.ok _ => Except.ok none
      | Except.error e => Except.error e

/-- The response construction in `KvsServer::start` (`server.rs` lines
62-67): `Ok(Some(v))` becomes `Value(v)`, `Ok(None)` becomes `Ok`, and an
error is wrapped unchanged as `Error(e)`. -/
def responseFor : Except Error (Option String) → Response
  | Except.ok (some v) => Response.Value v
  | Except.ok none => Response.Ok
  | Except.error e => Response.Error e

/-- The response the server writes back for one deserialized request. -/
def serverResponse (doGet : String → Except Error (Option String))
    (doSet : String → String → Except Error Unit)
    (doRemove : String → Except Error Unit) (req : Request) : Response :=
  responseFor (handleRequest doGet doSet doRemove req)

/-- Decode a byte sequence as UTF-8, as `String::from_utf8` does: `none`
exactly on invalid UTF-8 (stray continuation bytes, overlong forms,
surrogates, values beyond U+10FFFF, truncated sequences). -/
def utf8DecodeChars : List Nat → Option (List Char)
  | [] => some []
  | b0 :: rest =>
      if b0 ≤ 0x7F then
        match utf8DecodeChars rest with
        | some cs => some (Char.ofNat b0 :: cs)
        | none => none
      else if 0xC2 ≤ b0 ∧ b0 ≤ 0xDF then
        match rest with
        | b1 :: rest2 =>
            if 0x80 ≤ b1 ∧ b1 ≤ 0xBF then
              match utf8DecodeChars rest2 with
              | some cs => some (Char.ofNat ((b0 - 0xC0) * 64 + (b1 - 0x80)) :: cs)
              | none => none
            else none
        | [] => none
      else if 0xE0 ≤ b0 ∧ b0 ≤ 0xEF then
        match rest with
        | b1 :: b2 :: rest3 =>
            if (if b0 = 0xE0 then 0xA0 ≤ b1 ∧ b1 ≤ 0xBF
                else if b0 = 0xED then 0x80 ≤ b1 ∧ b1 ≤ 0x9F
                else 0x80 ≤ b1 ∧ b1 ≤ 0xBF) ∧ 0x80 ≤ b2 ∧ b2 ≤ 0xBF then
              match utf8DecodeChars rest3 with
              | some cs =>
                  some (Char.ofNat ((b0 - 0xE0) * 4096 + (b1 - 0x80) * 64 + (b2 - 0x80)) :: cs)
              | none => none
            else none
        | _ => none
      else if 0xF0 ≤ b0 ∧ b0 ≤ 0xF4 then
        match rest with
        | b1 :: b2 :: b3 :: rest4 =>
            if (if b0 = 0xF0 then 0x90 ≤ b1 ∧ b1 ≤ 0xBF
                else if b0 = 0xF4 then 0x80 ≤ b1 ∧ b1 ≤ 0x8F
                else 0x80 ≤ b1 ∧ b1 ≤ 0xBF) ∧ (0x80 ≤ b2 ∧ b2 ≤ 0xBF) ∧ 0x80 ≤ b3 ∧ b3 ≤ 0xBF then
              match utf8DecodeChars rest4 with
              | some cs =>
                  some (Char.ofNat
                    ((b0 - 0xF0) * 262144 + (b1 - 0x80) * 4096 + (b2 - 0x80) * 64 + (b3 - 0x80)) :: cs)
              | none => none
            else none
        | _ => none
      else none

/-- `String::from_utf8` on stored value bytes. -/
def utf8Decode (bytes : List Nat) : Option String :=
  match utf8DecodeChars bytes with
  | some cs => some (String.mk cs)
  | none => none

/-- `SledKvsEngine::get` (`src/engine/sled.rs` lines 39-46) over the
underlying sled database, modelled as an opaque durable map from keys to
stored value bytes: a missing key is `Ok(None)`; present bytes pass
through `String::from_utf8(..).unwrap()`, which panics on invalid UTF-8. -/
def sledGet (db : String → Option (List Nat)) (key : String) : GetOutcome :=
  match db key with
  | none => GetOutcome.ok none
  | some bytes =>
      match utf8Decode bytes with
      | some s => GetOutcome.ok (some s)
      | none => GetOutcome.panicked

/-- A 40-byte ASCII value, used to overwrite a key with a shorter value. -/
def v40 : String := "0123456789012345678901234567890123456789"

/-- A 600000-byte ASCII value; two overwritten records of this size push
`num_uncompacted` past the 1 MiB threshold. -/
def bigA : String := String.mk (List.replicate 600000 'a')

/-- State after `open []; set "a" v40; set "a" "z"`: the overwrite branch
left the stale `size := 55` (the new record's framed size is 15). -/
def c3St : KvStore :=
  { store := [("a", { pos := 55, size := 55 })],
    log := [Command.Set "a" v40, Command.Set "a" "z"],
    log_pos := 70, num_uncompacted := 55 }

/-- State after `open []; set "a" v40; set "a" "z"; set "a" "z"`: the stale
size 55 was added to `num_uncompacted` twice, exceeding `log_pos`. -/
def c4St : KvStore :=
  { store := [("a", { pos := 70, size := 55 })],
    log := [Command.Set "a" v40, Command.Set "a" "z", Command.Set "a" "z"],
    log_pos := 85, num_uncompacted := 110 }

/-- State after `open []; set "a" v40; set "a" "z"; set "b" "y"`. -/
def c2St : KvStore :=
  { store := [("a", { pos := 55, size := 55 }), ("b", { pos := 70, size := 15 })],
    log := [Command.Set "a" v40, Command.Set "a" "z", Command.Set "b" "y"],
    log_pos := 85, num_uncompacted := 55 }

/-- The four sets whose last one pushes `num_uncompacted` to 1200036 and
triggers compaction. -/
def bigOps : List Op :=
  [Op.set "a" bigA, Op.set "a" "z", Op.set "b" bigA, Op.set "b" "w"]

/-- The first three operations of `bigOps`. -/
def bigOps3 : List Op := [Op.set "a" bigA, Op.set "a" "z", Op.set "b" bigA]

/-- State after `set "a" bigA` on a fresh store. -/
def bigSt1 : KvStore :=
  { store := [("a", { pos := 0, size := 600018 })],
    log := [Command.Set "a" bigA],
    log_pos := 600018, num_uncompacted := 0 }

/-- State after the overwrite `set "a" "z"`: stale `size := 600018`. -/
def bigSt2 : KvStore :=
  { store := [("a", { pos := 600018, size := 600018 })],
    log := [Command.Set "a" bigA, Command.Set "a" "z"],
    log_pos := 600033, num_uncompacted := 600018 }

/-- State after `set "b" bigA`. -/
def bigSt3 : KvStore :=
  { store := [("a", { pos := 600018, size := 600018 }),
              ("b", { pos := 600033, size := 600018 })],
    log := [Command.Set "a" bigA, Command.Set "a" "z", Command.Set "b" bigA],
    log_pos := 1200051, num_uncompacted := 600018 }

/-- State after `set "b" "w"` and the compaction it triggers: the new log
is the 30-byte `[Set "a" "z", Set "b" "w"]`, yet the stale sizes made
compaction leave `index["b"].pos = 600018` and `log_pos = 1200036`. -/
def bigSt4 : KvStore :=
  { store := [("a", { pos := 0, size := 600018 }),
              ("b", { pos := 600018, size := 600018 })],
    log := [Command.Set "a" "z", Command.Set "b" "w"],
    log_pos := 1200036, num_uncompacted := 0 }

/-- Fixture store for the remove-failure witness. -/
def wSt : KvStore :=
  { store := [("x", { pos := 0, size := 15 })],
    log := [Command.Set "x" "1"],
    log_pos := 15, num_uncompacted := 0 }

/-- Fixture sled database: an invalid-UTF-8 value under "bad", the bytes
of "hi" under "ok". -/
def db0 : String → Option (List Nat) := fun k =>
  if k = "bad" then some [255]
  else if k = "ok" then some [104, 105]
  else none

/-- The argument `KvStore::set` hands to `compact` in the fourth step of
`bigOps`: the state after the `Set "b" "w"` record was appended and the
index mutated, with `num_uncompacted = 1200036` above the threshold. -/
def compactArg : KvStore :=
  { store := [("a", { pos := 600018, size := 600018 }),
              ("b", { pos := 1200051, size := 600018 })],
    log := [Command.Set "a" bigA, Command.Set "a" "z",
            Command.Set "b" bigA, Command.Set "b" "w"],
    log_pos := 1200066, num_uncompacted := 1200036 }

theorem storeGet_eq_none_of_not_mem (l : List (String × CommandIndex)) (key : String)
    (h : key ∉ l.map Prod.fst) : storeGet l key = none := by
  induction l with
  | nil => rfl
  | cons e rest ih =>
      obtain ⟨k0, i0⟩ := e
      simp only [List.map_cons, List.mem_cons] at h
      push_neg at h
      have hne : k0 ≠ key := fun hk => h.1 hk.symm
      simp only [storeGet, if_neg hne]
      exact ih h.2

theorem storeGet_storeRemove_self (l : List (String × CommandIndex)) (key : String)
    (h : (l.map Prod.fst).Nodup) : storeGet (storeRemove l key) key = none := by
  induction l with
  | nil => rfl
  | cons e rest ih =>
      obtain ⟨k0, i0⟩ := e
      simp only [List.map_cons, List.nodup_cons] at h
      by_cases hk : k0 = key
      · subst hk
        simp only [storeRemove, if_pos rfl]
        exact storeGet_eq_none_of_not_mem rest k0 h.1
      · simp only [storeRemove, if_neg hk, storeGet, if_neg hk]
        exact ih h.2

/-- C7: `remove(k)` on a key absent from the index returns the
`KeyNotFound` error and returns the state exactly as it was: nothing is
appended to the log and the index, `log_pos` and `num_uncompacted` are
unchanged. -/
theorem remove_absent_key (s : KvStore) (key : String)
    (h : storeGet s.store key = none) :
    s.remove key = (s, Except.error Error.KeyNotFound) := by
  simp only [KvStore.remove, h]

theorem remove_absent_key_witness :
    (KvStore.openStore []).remove "x" =
      (KvStore.openStore [], Except.error Error.KeyNotFound) :=
  remove_absent_key (KvStore.openStore []) "x" (by decide)

/-- C9: when `remove` on a present key fails at the tombstone
serialization or log write, it returns an error even though the key has
already been deleted from the in-memory index: the log is unchanged (no
tombstone was written) and a subsequent `get` of the key returns
`Ok(None)` in the same process. -/
theorem remove_error_drops_key (s : KvStore) (key : String) (idx : CommandIndex)
    (hpresent : storeGet s.store key = some idx)
    (hnodup : (s.store.map Prod.fst).Nodup) :
    (s.removeWriteFails key).2 = Except.error Error.IOError ∧
    (s.removeWriteFails key).1.log = s.log ∧
    storeGet (s.removeWriteFails key).1.store key = none ∧
    (s.removeWriteFails key).1.get key = GetOutcome.ok none := by
  have hrm : storeGet (storeRemove s.store key) key = none :=
    storeGet_storeRemove_self s.store key hnodup
  simp [KvStore.removeWriteFails, hpresent, KvStore.get, hrm]

theorem remove_error_drops_key_witness :
    (wSt.removeWriteFails "x").2 = Except.error Error.IOError ∧
    (wSt.removeWriteFails "x").1.log = wSt.log ∧
    storeGet (wSt.removeWriteFails "x").1.store "x" = none ∧
    (wSt.removeWriteFails "x").1.get "x" = GetOutcome.ok none :=
  remove_error_drops_key wSt "x" { pos := 0, size := 15 } (by decide) (by decide)

/-- C8: the response the server writes is determined by the engine result:
a successful `Set` yields `Ok`; a `Get` yields `Value(v)` for
`Ok(Some(v))` and `Ok` for `Ok(None)`; a successful `Remove` yields `Ok`;
and every engine error `e` (including `KeyNotFound`) is sent back
unchanged as `Error(e)`. -/
theorem server_response_mapping
    (doGet : String → Except Error (Option String))
    (doSet : String → String → Except Error Unit)
    (doRemove : String → Except Error Unit)
    (k v : String) (e : Error) :
    (doSet k v = Except.ok () →
      serverResponse doGet doSet doRemove (Request.Set k v) = Response.Ok) ∧
    (doGet k = Except.ok (some v) →
      serverResponse doGet doSet doRemove (Request.Get k) = Response.Value v) ∧
    (doGet k = Except.ok none →
      serverResponse doGet doSet doRemove (Request.Get k) = Response.Ok) ∧
    (doRemove k = Except.ok () →
      serverResponse doGet doSet doRemove (Request.Remove k) = Response.Ok) ∧
    (doSet k v = Except.error e →
      serverResponse doGet doSet doRemove (Request.Set k v) = Response.Error e) ∧
    (doGet k = Except.error e →
      serverResponse doGet doSet doRemove (Request.Get k) = Response.Error e) ∧
    (doRemove k = Except.error e →
      serverResponse doGet doSet doRemove (Request.Remove k) = Response.Error e) := by
  refine ⟨?_, ?_, ?_, ?_, ?_, ?_, ?_⟩ <;> intro h <;>
    simp [serverResponse, handleRequest, responseFor, h]

theorem server_response_mapping_witness :
    (serverResponse (fun _ => Except.ok (some "x")) (fun _ _ => Except.ok ())
      (fun _ => Except.ok ()) (Request.Set "k" "v") = Response.Ok) ∧
    (serverResponse (fun _ => Except.ok (some "x")) (fun _ _ => Except.ok ())
      (fun _ => Except.ok ()) (Request.Get "k") = Response.Value "x") ∧
    (serverResponse (fun _ => Except.ok none) (fun _ _ => Except.ok ())
      (fun _ => Except.ok ()) (Request.Get "k") = Response.Ok) ∧
    (serverResponse (fun _ => Except.ok (some "x")) (fun _ _ => Except.ok ())
      (fun _ => Except.ok ()) (Request.Remove "k") = Response.Ok) ∧
    (serverResponse (fun _ => Except.error Error.KeyNotFound)
      (fun _ _ => Except.error Error.KeyNotFound)
      (fun _ => Except.error Error.KeyNotFound) (Request.Remove "k") =
        Response.Error Error.KeyNotFound) :=
  ⟨(server_response_mapping (fun _ => Except.ok (some "x")) (fun _ _ => Except.ok ())
      (fun _ => Except.ok ()) "k" "v" Error.KeyNotFound).1 rfl,
   (server_response_mapping (fun _ => Except.ok (some "x")) (fun _ _ => Except.ok ())
      (fun _ => Except.ok ()) "k" "x" Error.KeyNotFound).2.1 rfl,
   (server_response_mapping (fun _ => Except.ok none) (fun _ _ => Except.ok ())
      (fun _ => Except.ok ()) "k" "v" Error.KeyNotFound).2.2.1 rfl,
   (server_response_mapping (fun _ => Except.ok (some "x")) (fun _ _ => Except.ok ())
      (fun _ => Except.ok ()) "k" "v" Error.KeyNotFound).2.2.2.1 rfl,
   (server_response_mapping (fun _ => Except.error Error.KeyNotFound)
      (fun _ _ => Except.error Error.KeyNotFound)
      (fun _ => Except.error Error.KeyNotFound) "k" "v" Error.KeyNotFound).2.2.2.2.2.2 rfl⟩

/-- C10: `SledKvsEngine::get` never surfaces an `Error` for a present
value: it returns `Ok(Some(v))` exactly when the stored bytes decode as
UTF-8 and panics via the unchecked `unwrap` — rather than returning a
`Deserialize` error — whenever the stored bytes are not valid UTF-8. -/
theorem sled_get_utf8_total (db : String → Option (List Nat)) (key : String)
    (bytes : List Nat) (h : db key = some bytes) :
    (sledGet db key = GetOutcome.panicked ↔ utf8Decode bytes = none) ∧
    (∀ s, utf8Decode bytes = some s → sledGet db key = GetOutcome.ok (some s)) ∧
    (∀ e, sledGet db key ≠ GetOutcome.err e) := by
  cases hd : utf8Decode bytes <;> simp [sledGet, h, hd]

theorem sled_get_utf8_total_witness :
    (sledGet db0 "bad" = GetOutcome.panicked) ∧
    (sledGet db0 "ok" = GetOutcome.ok (some "hi")) :=
  ⟨(sled_get_utf8_total db0 "bad" [255] (by decide)).1.mpr (by decide),
   (sled_get_utf8_total db0 "ok" [104, 105] (by decide)).2.1 "hi" (by decide)⟩

/-- C3 counterexample: after `open []; set("a", v40); set("a", "z")` both
operations succeed, the new record's framed size is 15, yet the index
entry for "a" is `{pos := 55, size := 55}`: the offset was replaced but
the framed size kept its old value 55. -/
theorem set_overwrite_keeps_stale_size :
    runOps (KvStore.openStore []) [Op.set "a" v40, Op.set "a" "z"] = some c3St ∧
    8 + payloadLen (Command.Set "a" "z") = 15 ∧
    storeGet c3St.store "a" = some { pos := 55, size := 55 } ∧
    storeGet c3St.store "a" ≠ some { pos := 55, size := 15 } := by
  refine ⟨by decide, by decide, by decide, by decide⟩

/-- C4 counterexample: after the successful run
`open []; set("a", v40); set("a", "z"); set("a", "z")` the stale entry
size 55 was added to `num_uncompacted` twice, so the counter (110)
exceeds `write_pos` (85), violating `uncompacted ≤ write_pos`. -/
theorem uncompacted_exceeds_write_pos :
    runOps (KvStore.openStore []) [Op.set "a" v40, Op.set "a" "z", Op.set "a" "z"] =
      some c4St ∧
    c4St.num_uncompacted = 110 ∧ c4St.log_pos = 85 ∧
    ¬ (c4St.num_uncompacted ≤ c4St.log_pos) := by
  refine ⟨by decide, by decide, by decide, by decide⟩

/-- C2 counterexample: `c2St` is reachable by three successful sets; its
index entry for "a" carries the stale size 55, so compaction advances the
new-log position by 55 while copying the 15-byte record, leaving
`index["b"].pos = 55` in a 30-byte log.  Compaction itself returns
successfully, yet `get("b")` returns `Ok(Some("y"))` before it and an I/O
error after it. -/
theorem compaction_changes_get :
    runOps (KvStore.openStore []) [Op.set "a" v40, Op.set "a" "z", Op.set "b" "y"] =
      some c2St ∧
    c2St.get "b" = GetOutcome.ok (some "y") ∧
    (c2St.compact).2 = Except.ok () ∧
    ((c2St.compact).1).get "b" = GetOutcome.err Error.IOError := by
  refine ⟨by decide, by decide, by rfl, by decide⟩

theorem utf8Size_a : Char.utf8Size 'a' = 1 := by decide

theorem utf8_go_replicate_a (n : Nat) :
    String.utf8ByteSize.go (List.replicate n 'a') = n := by
  induction n with
  | zero => rfl
  | succ m ih =>
      rw [List.replicate_succ]
      show String.utf8ByteSize.go (List.replicate m 'a') + Char.utf8Size 'a' = m + 1
      rw [ih, utf8Size_a]

theorem utf8ByteSize_bigA : bigA.utf8ByteSize = 600000 := by
  show String.utf8ByteSize.go (List.replicate 600000 'a') = 600000
  exact utf8_go_replicate_a 600000

theorem mpStrLen_of_big (s : String) (n : Nat) (h : s.utf8ByteSize = n)
    (h1 : 65536 ≤ n) : mpStrLen s = 5 + n := by
  unfold mpStrLen
  rw [h]
  rw [if_neg (by omega : ¬ n < 32), if_neg (by omega : ¬ n < 256),
      if_neg (by omega : ¬ n < 65536)]

theorem mpStrLen_bigA : mpStrLen bigA = 600005 := by
  rw [mpStrLen_of_big bigA 600000 utf8ByteSize_bigA (by norm_num)]

theorem mpStrLen_a : mpStrLen "a" = 2 := by decide

theorem mpStrLen_b : mpStrLen "b" = 2 := by decide

theorem payloadLen_set_eq (k v : String) :
    payloadLen (Command.Set k v) = 3 + mpStrLen k + mpStrLen v := rfl

theorem framedSize_eq (c : Command) : framedSize c = 8 + payloadLen c := rfl

theorem payloadLen_a_bigA : payloadLen (Command.Set "a" bigA) = 600010 := by
  rw [payloadLen_set_eq, mpStrLen_bigA, mpStrLen_a]

theorem payloadLen_b_bigA : payloadLen (Command.Set "b" bigA) = 600010 := by
  rw [payloadLen_set_eq, mpStrLen_bigA, mpStrLen_b]

theorem framedSize_a_bigA : framedSize (Command.Set "a" bigA) = 600018 := by
  rw [framedSize_eq, payloadLen_a_bigA]

theorem framedSize_b_bigA : framedSize (Command.Set "b" bigA) = 600018 := by
  rw [framedSize_eq, payloadLen_b_bigA]

theorem payloadLen_b_w : payloadLen (Command.Set "b" "w") = 7 := by decide

theorem set_insert (s : KvStore) (key value : String) (n : Nat)
    (hn : payloadLen (Command.Set key value) = n)
    (habsent : storeGet s.store key = none)
    (hth : ¬ s.num_uncompacted > MAX_UNCOMPACTED) :
    s.set key value =
      ({ store := storeInsert s.store key { pos := s.log_pos, size := 8 + n },
         log := s.log ++ [Command.Set key value],
         log_pos := s.log_pos + (8 + n),
         num_uncompacted := s.num_uncompacted }, Except.ok ()) := by
  simp only [KvStore.set]
  rw [hn, habsent]
  exact if_neg hth

theorem set_overwrite (s : KvStore) (key value : String) (n : Nat) (old : CommandIndex)
    (hn : payloadLen (Command.Set key value) = n)
    (hpresent : storeGet s.store key = some old)
    (hth : ¬ s.num_uncompacted + old.size > MAX_UNCOMPACTED) :
    s.set key value =
      ({ store := storeUpdatePos s.store key s.log_pos,
         log := s.log ++ [Command.Set key value],
         log_pos := s.log_pos + (8 + n),
         num_uncompacted := s.num_uncompacted + old.size }, Except.ok ()) := by
  simp only [KvStore.set]
  rw [hn, hpresent]
  exact if_neg hth

theorem set_overwrite_compact (s : KvStore) (key value : String) (n : Nat) (old : CommandIndex)
    (hn : payloadLen (Command.Set key value) = n)
    (hpresent : storeGet s.store key = some old)
    (hth : s.num_uncompacted + old.size > MAX_UNCOMPACTED) :
    s.set key value =
      KvStore.compact
        { store := storeUpdatePos s.store key s.log_pos,
          log := s.log ++ [Command.Set key value],
          log_pos := s.log_pos + (8 + n),
          num_uncompacted := s.num_uncompacted + old.size } := by
  simp only [KvStore.set]
  rw [hn, hpresent]
  exact if_pos hth

theorem bigStep1 : (KvStore.openStore []).set "a" bigA = (bigSt1, Except.ok ()) := by
  rw [set_insert (KvStore.openStore []) "a" bigA 600010 payloadLen_a_bigA (by decide)
      (by decide)]
  simp [KvStore.openStore, loadLog, logSize, storeInsert, bigSt1]

theorem bigStep2 : bigSt1.set "a" "z" = (bigSt2, Except.ok ()) := by
  rw [set_overwrite bigSt1 "a" "z" 7 { pos := 0, size := 600018 } (by decide) (by decide)
      (by decide)]
  simp [bigSt1, bigSt2, storeUpdatePos]

theorem bigStep3 : bigSt2.set "b" bigA = (bigSt3, Except.ok ()) := by
  rw [set_insert bigSt2 "b" bigA 600010 payloadLen_b_bigA (by decide) (by decide)]
  simp [bigSt2, bigSt3, storeInsert]
end Kvs

namespace Kvs
theorem readRecordAt_zero (c : Command) (rest : List Command) :
    readRecordAt (c :: rest) 0 = some c := by
  simp [readRecordAt]

theorem readRecordAt_skip (c : Command) (rest : List Command) (off n m : Nat)
    (hn : framedSize c = n) (h0 : off ≠ 0) (hge : n ≤ off) (hm : off - n = m) :
    readRecordAt (c :: rest) off = readRecordAt rest m := by
  simp only [readRecordAt]
  rw [hn, if_neg h0, if_neg (by omega : ¬ off < n), hm]

theorem read_big_600018 :
    readRecordAt [Command.Set "a" bigA, Command.Set "a" "z",
      Command.Set "b" bigA, Command.Set "b" "w"] 600018 = some (Command.Set "a" "z") := by
  rw [readRecordAt_skip (Command.Set "a" bigA) _ 600018 600018 0 framedSize_a_bigA
      (by decide) (by decide) (by decide)]
  exact readRecordAt_zero _ _

theorem read_big_1200051 :
    readRecordAt [Command.Set "a" bigA, Command.Set "a" "z",
      Command.Set "b" bigA, Command.Set "b" "w"] 1200051 = some (Command.Set "b" "w") := by
  rw [readRecordAt_skip (Command.Set "a" bigA) _ 1200051 600018 600033 framedSize_a_bigA
      (by decide) (by decide) (by decide)]
  rw [readRecordAt_skip (Command.Set "a" "z") _ 600033 15 600018 (by decide)
      (by decide) (by decide) (by decide)]
  rw [readRecordAt_skip (Command.Set "b" bigA) _ 600018 600018 0 framedSize_b_bigA
      (by decide) (by decide) (by decide)]
  exact readRecordAt_zero _ _

theorem compact_eq (s : KvStore) :
    KvStore.compact s =
      match compactLoop s.log (sortByPos s.store) 0 with
      | (entries, recs, finalPos, ok) =>
          if ok then
            ({ store := entries, log := recs, log_pos := finalPos, num_uncompacted := 0 },
             Except.ok ())
          else
            ({ s with store := entries }, Except.error Error.IOError) := rfl

theorem hsort_big : sortByPos compactArg.store =
    [("a", { pos := 600018, size := 600018 }), ("b", { pos := 1200051, size := 600018 })] := by
  decide

theorem compactLoop_nil (oldLog : List Command) (newPos : Nat) :
    compactLoop oldLog [] newPos = ([], [], newPos, true) := rfl

theorem compactLoop_cons (oldLog : List Command) (k : String) (idx : CommandIndex)
    (rest : List (String × CommandIndex)) (newPos : Nat) (c : Command)
    (hread : readRecordAt oldLog idx.pos = some c) :
    compactLoop oldLog ((k, idx) :: rest) newPos =
      match compactLoop oldLog rest (newPos + idx.size) with
      | (entries, recs, finalPos, ok) =>
          ((k, { pos := newPos, size := idx.size }) :: entries, c :: recs, finalPos, ok) := by
  simp only [compactLoop]
  rw [hread]

theorem read_arg_600018 :
    readRecordAt compactArg.log 600018 = some (Command.Set "a" "z") := by
  show readRecordAt [Command.Set "a" bigA, Command.Set "a" "z",
      Command.Set "b" bigA, Command.Set "b" "w"] 600018 = some (Command.Set "a" "z")
  exact read_big_600018

theorem read_arg_1200051 :
    readRecordAt compactArg.log 1200051 = some (Command.Set "b" "w") := by
  show readRecordAt [Command.Set "a" bigA, Command.Set "a" "z",
      Command.Set "b" bigA, Command.Set "b" "w"] 1200051 = some (Command.Set "b" "w")
  exact read_big_1200051

theorem hloop_big : compactLoop compactArg.log
    [("a", { pos := 600018, size := 600018 }), ("b", { pos := 1200051, size := 600018 })] 0 =
    ([("a", { pos := 0, size := 600018 }), ("b", { pos := 600018, size := 600018 })],
     [Command.Set "a" "z", Command.Set "b" "w"], 1200036, true) := by
  rw [compactLoop_cons compactArg.log "a" { pos := 600018, size := 600018 } _ 0
      (Command.Set "a" "z") read_arg_600018]
  rw [compactLoop_cons compactArg.log "b" { pos := 1200051, size := 600018 } _ _
      (Command.Set "b" "w") read_arg_1200051]
  rw [compactLoop_nil]
  rfl

theorem bigStep4 : bigSt3.set "b" "w" = (bigSt4, Except.ok ()) := by
  rw [set_overwrite_compact bigSt3 "b" "w" 7 { pos := 600033, size := 600018 }
      payloadLen_b_w (by decide) (by decide)]
  show KvStore.compact compactArg = (bigSt4, Except.ok ())
  rw [compact_eq, hsort_big, hloop_big]
  rfl

theorem runOps_nil (s : KvStore) : runOps s [] = some s := rfl

theorem runOp_set_ok (s s1 : KvStore) (k v : String)
    (h : s.set k v = (s1, Except.ok ())) : runOp s (Op.set k v) = (s1, true) := by
  simp only [runOp]
  rw [h]

theorem runOps_cons_ok (s s1 : KvStore) (o : Op) (rest : List Op)
    (h : runOp s o = (s1, true)) : runOps s (o :: rest) = runOps s1 rest := by
  simp only [runOps]
  rw [h]

theorem bigRun3 : runOps (KvStore.openStore []) bigOps3 = some bigSt3 := by
  show runOps (KvStore.openStore [])
      [Op.set "a" bigA, Op.set "a" "z", Op.set "b" bigA] = some bigSt3
  rw [runOps_cons_ok _ bigSt1 _ _ (runOp_set_ok _ _ _ _ bigStep1),
      runOps_cons_ok _ bigSt2 _ _ (runOp_set_ok _ _ _ _ bigStep2),
      runOps_cons_ok _ bigSt3 _ _ (runOp_set_ok _ _ _ _ bigStep3)]
  exact runOps_nil bigSt3

theorem bigRun : runOps (KvStore.openStore []) bigOps = some bigSt4 := by
  show runOps (KvStore.openStore [])
      [Op.set "a" bigA, Op.set "a" "z", Op.set "b" bigA, Op.set "b" "w"] = some bigSt4
  rw [runOps_cons_ok _ bigSt1 _ _ (runOp_set_ok _ _ _ _ bigStep1),
      runOps_cons_ok _ bigSt2 _ _ (runOp_set_ok _ _ _ _ bigStep2),
      runOps_cons_ok _ bigSt3 _ _ (runOp_set_ok _ _ _ _ bigStep3),
      runOps_cons_ok _ bigSt4 _ _ (runOp_set_ok _ _ _ _ bigStep4)]
  exact runOps_nil bigSt4

/-- C1 counterexample: the four successful sets of `bigOps` (the last one
triggers compaction, which also returns successfully) leave the index
entry for "b" at offset 600018, but the compacted log is only 30 bytes
long, so seeking there and reading the 8-byte size frame fails: no record
— in particular no `Set("b", v)` — is obtained at `index["b"].offset`. -/
theorem index_points_past_eof_after_compaction :
    runOps (KvStore.openStore []) bigOps = some bigSt4 ∧
    storeGet bigSt4.store "b" = some { pos := 600018, size := 600018 } ∧
    logSize bigSt4.log = 30 ∧
    readRecordAt bigSt4.log 600018 = none :=
  ⟨bigRun, by decide, by decide, by decide⟩

/-- C5 counterexample: `bigSt3` is reachable by three successful sets;
`set("b", "w")` on it returns successfully (the compaction it triggers
succeeds), no other mutation intervenes, and yet `get("b")` returns an
I/O error instead of `Ok(Some("w"))`. -/
theorem set_then_get_fails_after_triggered_compaction :
    runOps (KvStore.openStore []) bigOps3 = some bigSt3 ∧
    bigSt3.set "b" "w" = (bigSt4, Except.ok ()) ∧
    bigSt4.get "b" = GetOutcome.err Error.IOError :=
  ⟨bigRun3, bigStep4, by decide⟩

/-- C6 counterexample: after the four successful sets of `bigOps`, the
engine observes `get("b")` as an I/O error, while re-opening the
persisted log rebuilds a fresh index under which `get("b")` returns
`Ok(Some("w"))`: the live map observed through `get` changes across drop
and re-open. -/
theorem reopen_disagrees_with_predrop_get :
    runOps (KvStore.openStore []) bigOps = some bigSt4 ∧
    bigSt4.get "b" = GetOutcome.err Error.IOError ∧
    (KvStore.openStore bigSt4.log).get "b" = GetOutcome.ok (some "w") :=
  ⟨bigRun, by decide, by decide⟩

end Kvs
